import Mathlib

/-!
Verification development for the BearingManualAutomation repository.

Part 1 embeds the advisory rule functions of `Module1.py` (material
selection, roller-profile matching, tolerance lookup) as Lean functions
over `ℚ` and `String`, mirroring the Python control flow.

Part 2 models the Bearing Geometry & Load-Rating Calculation Engine
described by the specification (reference interpolator, geometry
resolver, roller selector, load-rating calculator); that code is not
part of the source tree, so each definition is modelled from the spec.
-/

namespace Bearing

/-! ### Module1.py: material and heat-treatment selector -/

/-- Python's `str.lower()`, modelled as character-wise lowercasing. -/
def strLower (s : String) : String := String.mk (s.data.map Char.toLower)

/-- Fallback branch (step 4) of `suggest_material_and_treatment_module3`
in `Module1.py`: legacy wall-thickness / roller-diameter rules. -/
def materialFallback (roller_dia wall_thickness : ℚ) : String × String :=
  if wall_thickness ≤ 17 ∧ roller_dia ≤ 32 then ("GCr15", "Martensitic Quenching")
  else if wall_thickness ≤ 25 ∧ roller_dia ≤ 45 then ("GCr15", "Bainite Isothermal QT")
  else if roller_dia > 45 then ("GCr18Mo", "Bainite Isothermal QT")
  else ("GCr15SiMn", "Martensitic Quenching")

/-- Embedding of `suggest_material_and_treatment_module3` from `Module1.py`.
The Python function lowercases `load_type`, then checks the impact
override, the hot-mill override, the ring-position rules, and finally
the legacy fallback.  Optional string arguments are `Option String`. -/
def suggest_material_and_treatment_module3 (roller_dia wall_thickness : ℚ)
    (load_type : String) (ring_position bearing_type mill_type : Option String) :
    String × String :=
  if strLower load_type = "impact" then ("G20Cr2Ni4A", "Carburizing Heat Treatment")
  else if mill_type = some "hot mill" then ("GCr18Mo", "Bainite Isothermal QT")
  else if ring_position = some "Inner Ring" then
    (if bearing_type = some "Fixed" then
      (if roller_dia > 45 ∨ wall_thickness > 25 then ("GCr18Mo", "Bainite Isothermal QT")
       else ("GCr15SiMn", "Martensitic Quenching"))
     else if bearing_type = some "Floating" then ("GCr15", "Martensitic Quenching")
     else materialFallback roller_dia wall_thickness)
  else if ring_position = some "Outer Ring" then
    (if bearing_type = some "Fixed" then ("GCr18Mo", "Bainite Isothermal QT")
     else ("GCr15SiMn", "Martensitic Quenching"))
  else materialFallback roller_dia wall_thickness

/-! ### Module1.py: roller profile table -/

/-- One row of the fixed `roller_profile_df` table in `Module1.py`. -/
structure ProfileRow where
  profile_type : String
  min_dia : ℚ
  max_dia : ℚ
  max_deviation : ℚ
deriving DecidableEq

/-- Row 1 of `roller_profile_df`: Logarithmic, 20–40 mm, 3.0 µm. -/
def profileRow1 : ProfileRow := ⟨"Logarithmic", 20, 40, 3⟩

/-- Row 2 of `roller_profile_df`: Logarithmic, 40–60 mm, 4.0 µm. -/
def profileRow2 : ProfileRow := ⟨"Logarithmic", 40, 60, 4⟩

/-- Row 3 of `roller_profile_df`: Crowned, 20–40 mm, 2.0 µm. -/
def profileRow3 : ProfileRow := ⟨"Crowned", 20, 40, 2⟩

/-- Row 4 of `roller_profile_df`: Crowned, 40–60 mm, 3.0 µm. -/
def profileRow4 : ProfileRow := ⟨"Crowned", 40, 60, 3⟩

/-- Row 5 of `roller_profile_df`: Flat, 20–60 mm, 1.0 µm. -/
def profileRow5 : ProfileRow := ⟨"Flat", 20, 60, 1⟩

/-- The fixed `roller_profile_df` table of `Module1.py`, in row order. -/
def roller_profile_df : List ProfileRow :=
  [profileRow1, profileRow2, profileRow3, profileRow4, profileRow5]

/-- Row predicate of the loop in `get_max_deviation`: case-insensitive
profile-type match and inclusive diameter band. -/
def profileMatches (profile_type : String) (diameter : ℚ) (row : ProfileRow) : Bool :=
  (strLower row.profile_type == strLower profile_type)
    && decide (row.min_dia ≤ diameter) && decide (diameter ≤ row.max_dia)

/-- Embedding of `get_max_deviation` from `Module1.py`: scan the table in
row order and return the first matching row's max deviation, else `none`. -/
def get_max_deviation (profile_type : String) (diameter : ℚ) : Option ℚ :=
  (roller_profile_df.find? (profileMatches profile_type diameter)).map ProfileRow.max_deviation

/-! ### Module1.py: tolerance lookup -/

/-- One row of a tolerance table (the Excel tables loaded by
`load_tolerance_tables`); deviations are in µm. -/
structure ToleranceRow where
  min_diameter : ℚ
  max_diameter : ℚ
  upper_dev : ℚ
  lower_dev : ℚ
deriving DecidableEq

/-- The record returned by `find_tolerance` in `Module1.py`. -/
structure ToleranceResult where
  upper_dev : ℚ
  lower_dev : ℚ
  max_bore : ℚ
  min_bore : ℚ
deriving DecidableEq

/-- Round-half-to-even to an integer, the rounding used by Python's
built-in `round`. -/
def roundHalfEven (x : ℚ) : ℤ :=
  if x - ⌊x⌋ < 1/2 then ⌊x⌋
  else if 1/2 < x - ⌊x⌋ then ⌊x⌋ + 1
  else if ⌊x⌋ % 2 = 0 then ⌊x⌋ else ⌊x⌋ + 1

/-- Python's `round(x, 3)`: round half-to-even at three decimal places. -/
def round3 (x : ℚ) : ℚ := (roundHalfEven (x * 1000) : ℚ) / 1000

/-- Row predicate of the loop in `find_tolerance`: the half-open band
`Min Diameter (mm) < bore_dia <= Max Diameter (mm)`. -/
def tolRowMatches (bore_dia : ℚ) (row : ToleranceRow) : Bool :=
  decide (row.min_diameter < bore_dia) && decide (bore_dia ≤ row.max_diameter)

/-- Result record built by `find_tolerance` for a matching row:
deviations in µm plus min/max bore in mm rounded to 3 decimals. -/
def tolResultOf (bore_dia : ℚ) (row : ToleranceRow) : ToleranceResult :=
  ⟨row.upper_dev, row.lower_dev,
    round3 (bore_dia + row.upper_dev / 1000),
    round3 (bore_dia + row.lower_dev / 1000)⟩

/-- Embedding of `find_tolerance` from `Module1.py`.  `class_tables`
models the `{"Normal": …, "P6": …, "P5": …}` dict of loaded tables
(`dict.get` returning `none` for an unknown class); a missing or empty
table and a failed scan all yield `none`. -/
def find_tolerance (class_tables : String → Option (List ToleranceRow))
    (bore_dia : ℚ) (tolerance_class : String) : Option ToleranceResult :=
  match class_tables tolerance_class with
  | none => none
  | some df =>
    if df = [] then none
    else (df.find? (tolRowMatches bore_dia)).map (tolResultOf bore_dia)

/-! ### Generic list lemmas -/

/-- `List.find?` returns the first element satisfying the predicate: if
everything before `a` fails the predicate and `a` satisfies it, the scan
stops at `a`. -/
theorem find?_append_first {α : Type*} (p : α → Bool) (l₁ l₂ : List α) (a : α)
    (h₁ : ∀ x ∈ l₁, p x = false) (h₂ : p a = true) :
    (l₁ ++ a :: l₂).find? p = some a := by
  induction l₁ with
  | nil => simp [List.find?_cons, h₂]
  | cons x xs ih =>
      have hx : p x = false := h₁ x (by simp)
      simp only [List.cons_append, List.find?_cons, hx]
      exact ih (fun y hy => h₁ y (by simp [hy]))

/-! ### Claims about Module1.py -/

/-- Claim C8: `suggest_material_and_treatment_module3` is total with a
fixed precedence order — a load type that lowercases to "impact" forces
`("G20Cr2Ni4A", "Carburizing Heat Treatment")` regardless of all other
arguments; otherwise a mill type of "hot mill" forces
`("GCr18Mo", "Bainite Isothermal QT")`; and every input combination
produces some (steel, heat-treatment) pair. -/
theorem claim_C8_suggest_material_precedence (roller_dia wall_thickness : ℚ)
    (load_type : String) (ring_position bearing_type mill_type : Option String) :
    (strLower load_type = "impact" →
      suggest_material_and_treatment_module3 roller_dia wall_thickness load_type
        ring_position bearing_type mill_type = ("G20Cr2Ni4A", "Carburizing Heat Treatment"))
    ∧ (strLower load_type ≠ "impact" → mill_type = some "hot mill" →
      suggest_material_and_treatment_module3 roller_dia wall_thickness load_type
        ring_position bearing_type mill_type = ("GCr18Mo", "Bainite Isothermal QT"))
    ∧ (∃ out, suggest_material_and_treatment_module3 roller_dia wall_thickness load_type
        ring_position bearing_type mill_type = out) := by
  refine ⟨fun h => ?_, fun h₁ h₂ => ?_, ⟨_, rfl⟩⟩
  · simp [suggest_material_and_treatment_module3, h]
  · simp [suggest_material_and_treatment_module3, h₁, h₂]

/-- Witness for claim C8 at concrete inputs: the impact override and the
hot-mill override on explicit argument values. -/
theorem claim_C8_suggest_material_precedence_witness :
    suggest_material_and_treatment_module3 35 20 "Impact" none none none
      = ("G20Cr2Ni4A", "Carburizing Heat Treatment")
    ∧ suggest_material_and_treatment_module3 35 20 "standard" none none (some "hot mill")
      = ("GCr18Mo", "Bainite Isothermal QT") :=
  ⟨(claim_C8_suggest_material_precedence 35 20 "Impact" none none none).1 (by decide),
   (claim_C8_suggest_material_precedence 35 20 "standard" none none
      (some "hot mill")).2.1 (by decide) rfl⟩

/-- Claim C9: `get_max_deviation` scans the fixed roller-profile table in
row order, matching case-insensitively on profile type and with the
inclusive band `min_dia ≤ diameter ≤ max_dia`; at the overlapping
boundary diameter 40 with profile "Logarithmic" both the 20–40 row and
the 40–60 row match and the earlier row's value 3.0 is returned; the
result is `none` exactly when no row matches; and in general the first
matching row's value is returned. -/
theorem claim_C9_get_max_deviation :
    (get_max_deviation "Logarithmic" 40 = some 3)
    ∧ (profileMatches "Logarithmic" 40 profileRow1 = true
        ∧ profileMatches "Logarithmic" 40 profileRow2 = true)
    ∧ (∀ (pt : String) (dia : ℚ), get_max_deviation pt dia = none ↔
        ∀ row ∈ roller_profile_df, profileMatches pt dia row = false)
    ∧ (∀ (pt : String) (dia : ℚ) (l₁ l₂ : List ProfileRow) (row : ProfileRow),
        roller_profile_df = l₁ ++ row :: l₂ →
        (∀ r ∈ l₁, profileMatches pt dia r = false) →
        profileMatches pt dia row = true →
        get_max_deviation pt dia = some row.max_deviation) := by
  refine ⟨by decide, ⟨by decide, by decide⟩, fun pt dia => ?_, fun pt dia l₁ l₂ row hsplit h₁ h₂ => ?_⟩
  · simp [get_max_deviation, List.find?_eq_none]
  · unfold get_max_deviation
    rw [hsplit, find?_append_first _ _ _ _ h₁ h₂]
    rfl

/-- Witness for claim C9: the first-match part applied to the concrete
table split at its first row, for profile "Logarithmic" at 40 mm. -/
theorem claim_C9_get_max_deviation_witness :
    get_max_deviation "Logarithmic" 40 = some profileRow1.max_deviation :=
  claim_C9_get_max_deviation.2.2.2 "Logarithmic" 40 []
    [profileRow2, profileRow3, profileRow4, profileRow5] profileRow1 rfl
    (by simp) (by decide)

/-- Claim C10: `find_tolerance` matches rows by the half-open band
`min_diameter < bore_dia ≤ max_diameter` (so a bore equal to a row's
minimum never matches that row), returns for the first matching row the
deviations plus `round3 (bore + dev/1000)` bounds, and returns `none`
exactly when the class has no table, the table is empty, or no row's
band contains the bore diameter. -/
theorem claim_C10_find_tolerance :
    (∀ row : ToleranceRow, tolRowMatches row.min_diameter row = false)
    ∧ (∀ (class_tables : String → Option (List ToleranceRow)) (bore_dia : ℚ) (cls : String),
        find_tolerance class_tables bore_dia cls =
          (class_tables cls).bind (fun df =>
            (df.find? (tolRowMatches bore_dia)).map (fun row =>
              (⟨row.upper_dev, row.lower_dev,
                round3 (bore_dia + row.upper_dev / 1000),
                round3 (bore_dia + row.lower_dev / 1000)⟩ : ToleranceResult))))
    ∧ (∀ (class_tables : String → Option (List ToleranceRow)) (bore_dia : ℚ) (cls : String),
        find_tolerance class_tables bore_dia cls = none ↔
          class_tables cls = none ∨ class_tables cls = some []
            ∨ ∃ df, class_tables cls = some df
                ∧ ∀ row ∈ df, tolRowMatches bore_dia row = false) := by
  refine ⟨fun row => ?_, fun ct b c => ?_, fun ct b c => ?_⟩
  · unfold tolRowMatches
    rw [decide_eq_false (lt_irrefl _), Bool.false_and]
  · unfold find_tolerance
    cases h : ct c with
    | none => rfl
    | some df =>
        cases df with
        | nil => rfl
        | cons x xs =>
            show (if x :: xs = [] then none
              else (List.find? (tolRowMatches b) (x :: xs)).map (tolResultOf b)) = _
            rw [if_neg (List.cons_ne_nil x xs)]
            rfl
  · unfold find_tolerance
    cases h : ct c with
    | none => simp
    | some df =>
        cases df with
        | nil => simp
        | cons x xs =>
            show (if x :: xs = [] then none
              else (List.find? (tolRowMatches b) (x :: xs)).map (tolResultOf b)) = none ↔ _
            rw [if_neg (List.cons_ne_nil x xs), Option.map_eq_none', List.find?_eq_none]
            simp only [reduceCtorEq, Option.some.injEq, false_or]
            constructor
            · intro hall
              exact ⟨x :: xs, rfl, fun r hr => by simpa using hall r hr⟩
            · rintro ⟨df', rfl, hall⟩ r hr
              simp [hall r hr]

/-! ### Spec-modelled engine: data model

The Bearing Geometry & Load-Rating Calculation Engine of the
specification is not part of the source tree, so every definition in
this section is modelled from the spec's words. -/

/-- Modelled from the spec: the error taxonomy of §7 for the engine
core (`LookupError` for empty reference tables, `GeometryError` for
physically infeasible derived geometry). -/
inductive EngineError where
  | lookupError
  | geometryError
deriving DecidableEq

/-- Modelled from the spec: the interpolation-method tag returned by the
reference interpolator (§4.1). -/
inductive FMethod where
  | ExactMatch
  | BilinearInterpolated
  | NearestFallback
deriving DecidableEq

/-- Modelled from the spec: a race-groove table record
`(inner_diameter, outer_diameter, F)` (§3). -/
structure RaceGrooveRecord where
  inner_diameter : ℚ
  outer_diameter : ℚ
  F : ℚ
deriving DecidableEq

/-- Modelled from the spec: a roller catalog record
`(dw, lw, r_min, r_max, mass_per_100)` (§3). -/
structure RollerCatalogRecord where
  dw : ℚ
  lw : ℚ
  r_min : ℚ
  r_max : ℚ
  mass_per_100 : ℚ
deriving DecidableEq

/-- Modelled from the spec: the derived geometry of §3/§4.2. -/
structure DerivedGeometry where
  pitch_diameter : ℚ
  race_groove_F : ℚ
  max_roller_diameter : ℚ
  adjusted_max_roller_diameter : ℚ
  Z : ℤ

/-- Modelled from the spec: the chosen catalog row plus the derived
corner radius `r = 0.75 · r_max` and effective length `Lwe = lw − 2r`
(§3/§4.3). -/
structure SelectedRoller where
  row : RollerCatalogRecord
  r : ℚ
  Lwe : ℚ
deriving DecidableEq

/-- Modelled from the spec: the load ratings `Cr`/`Cor` in newtons (§3). -/
structure LoadRatings where
  Cr : ℝ
  Cor : ℝ

/-! ### Spec-modelled engine: reference interpolator (§4.1) -/

/-- First minimiser of `f` over a list, `none` on the empty list. -/
def argminQ {α : Type*} (f : α → ℚ) : List α → Option α
  | [] => none
  | x :: xs => some (xs.foldl (fun b y => if f y < f b then y else b) x)

/-- First minimiser of `f` over the nonempty list `x :: xs`. -/
def pickMinQ {α : Type*} (f : α → ℚ) (x : α) (xs : List α) : α :=
  xs.foldl (fun b y => if f y < f b then y else b) x

/-- Modelled from the spec: the small constant `ε` in the normalized
blend weight of §4.1, avoiding division by zero when anchors coincide. -/
def interpEps : ℚ := 1 / 1000000000

/-- Modelled from the spec: the lower anchor of §4.1 — the nearest
record with `inner_diameter ≤ d` and `outer_diameter ≤ D`. -/
def lowerAnchor (x : RaceGrooveRecord) (xs : List RaceGrooveRecord) (d D : ℚ) :
    Option RaceGrooveRecord :=
  argminQ (fun r => (d - r.inner_diameter) + (D - r.outer_diameter))
    ((x :: xs).filter (fun r => decide (r.inner_diameter ≤ d) && decide (r.outer_diameter ≤ D)))

/-- Modelled from the spec: the upper anchor of §4.1 — the nearest
record with `inner_diameter ≥ d` and `outer_diameter ≥ D`. -/
def upperAnchor (x : RaceGrooveRecord) (xs : List RaceGrooveRecord) (d D : ℚ) :
    Option RaceGrooveRecord :=
  argminQ (fun r => (r.inner_diameter - d) + (r.outer_diameter - D))
    ((x :: xs).filter (fun r => decide (d ≤ r.inner_diameter) && decide (D ≤ r.outer_diameter)))

/-- Modelled from the spec: steps 2–3 of §4.1 for a nonempty table —
blend between the two anchors when both exist, otherwise fall back to
the record minimising `|inner − d| + |outer − D|`. -/
def interpOrNearest (x : RaceGrooveRecord) (xs : List RaceGrooveRecord) (d D : ℚ) :
    Except EngineError (ℚ × FMethod) :=
  match lowerAnchor x xs d D, upperAnchor x xs d D with
  | some rl, some ru =>
      .ok (rl.F + (((d - rl.inner_diameter) + (D - rl.outer_diameter)) /
          ((ru.inner_diameter - rl.inner_diameter) + (ru.outer_diameter - rl.outer_diameter)
            + interpEps)) * (ru.F - rl.F),
        FMethod.BilinearInterpolated)
  | _, _ =>
      .ok ((pickMinQ (fun r => |r.inner_diameter - d| + |r.outer_diameter - D|) x xs).F,
        FMethod.NearestFallback)

/-- Modelled from the spec: `find_race_groove_F(d, D, table)` of §4.1 —
exact match first, then interpolation/fallback; fails with
`LookupError` only on an empty table. -/
def find_race_groove_F (table : List RaceGrooveRecord) (d D : ℚ) :
    Except EngineError (ℚ × FMethod) :=
  match table with
  | [] => .error .lookupError
  | x :: xs =>
      ((x :: xs).find? (fun r =>
          decide (r.inner_diameter = d) && decide (r.outer_diameter = D))).elim
        (interpOrNearest x xs d D)
        (fun r => .ok (r.F, FMethod.ExactMatch))

/-! ### Spec-modelled engine: geometry resolver (§4.2) -/

/-- Modelled from the spec: the roller count
`Z = floor(π / asin(max_roller_diameter / pitch_diameter))` (§4.2). -/
noncomputable def rollerCountZ (x : ℚ) : ℤ :=
  ⌊Real.pi / Real.arcsin (x : ℝ)⌋

/-- Modelled from the spec: `resolve_geometry` of §4.2, generalised
over the safety margin fraction (the spec fixes it at 2% of the pitch
diameter); fails with `GeometryError` when `max_roller_diameter /
pitch_diameter` lies outside `(−1, 1)`. -/
noncomputable def resolve_geometry_margin (margin d D F : ℚ) :
    Except EngineError DerivedGeometry :=
  let pd := (d + D) / 2
  let mrd := pd - F
  if -1 < mrd / pd ∧ mrd / pd < 1 then
    .ok ⟨pd, F, mrd, mrd - margin * pd, rollerCountZ (mrd / pd)⟩
  else .error .geometryError

/-- Modelled from the spec: `resolve_geometry(d, D, F)` of §4.2 with the
2% pitch-diameter safety margin. -/
noncomputable def resolve_geometry (d D F : ℚ) : Except EngineError DerivedGeometry :=
  resolve_geometry_margin (2/100) d D F

/-! ### Spec-modelled engine: roller selector (§4.3) -/

/-- Modelled from the spec: the fit filter of §4.3 —
`dw ≤ adjusted_max_dw` and `lw ≤ B`. -/
def rollerFits (adjusted_max_dw B : ℚ) (r : RollerCatalogRecord) : Bool :=
  decide (r.dw ≤ adjusted_max_dw) && decide (r.lw ≤ B)

/-- One tie-break step: replace the current best row by `y` exactly when
`y` has strictly larger `dw`, or equal `dw` and strictly larger `lw`. -/
def rollerStep (b y : RollerCatalogRecord) : RollerCatalogRecord :=
  if b.dw < y.dw ∨ (b.dw = y.dw ∧ b.lw < y.lw) then y else b

/-- Deterministic pick over the nonempty candidate list `x :: xs`:
largest `dw`, then largest `lw`, keeping the earliest row on full ties. -/
def pickBestRow (x : RollerCatalogRecord) (xs : List RollerCatalogRecord) :
    RollerCatalogRecord :=
  xs.foldl rollerStep x

/-- Modelled from the spec: derive `r = 0.75 · r_max` and
`Lwe = lw − 2 · r` for the chosen row (§4.3). -/
def mkSelected (row : RollerCatalogRecord) : SelectedRoller :=
  ⟨row, (3/4) * row.r_max, row.lw - 2 * ((3/4) * row.r_max)⟩

/-- Pick from an already filtered candidate list: `none` when empty,
otherwise the deterministic (dw, lw)-maximal row. -/
def pickFiltered : List RollerCatalogRecord → Option SelectedRoller
  | [] => none
  | x :: xs => some (mkSelected (pickBestRow x xs))

/-- Modelled from the spec: `select_roller(catalog, adjusted_max_dw, B)`
of §4.3 — filter by fit, then the deterministic tie-break. -/
def select_roller (catalog : List RollerCatalogRecord) (adjusted_max_dw B : ℚ) :
    Option SelectedRoller :=
  pickFiltered (catalog.filter (rollerFits adjusted_max_dw B))

/-! ### Spec-modelled engine: load-rating calculator (§4.4) -/

/-- Minimum of the ratio column of an fc table (0 for an empty table). -/
def colMin : List (ℚ × ℚ) → ℚ
  | [] => 0
  | p :: ps => ps.foldl (fun a q => min a q.1) p.1

/-- Maximum of the ratio column of an fc table (0 for an empty table). -/
def colMax : List (ℚ × ℚ) → ℚ
  | [] => 0
  | p :: ps => ps.foldl (fun a q => max a q.1) p.1

/-- Modelled from the spec: clip a query value to the fc table's
observed domain `[min(ratio_column), max(ratio_column)]` (§4.4). -/
def clampDom (tbl : List (ℚ × ℚ)) (x : ℚ) : ℚ :=
  max (colMin tbl) (min (colMax tbl) x)

/-- Piecewise-linear interpolation through the (sorted) fc table. -/
def interp0 : List (ℚ × ℚ) → ℚ → ℚ
  | [], _ => 0
  | [(_, f₁)], _ => f₁
  | (r₁, f₁) :: (r₂, f₂) :: rest, x =>
      if x ≤ r₁ then f₁
      else if x ≤ r₂ then f₁ + (x - r₁) * (f₂ - f₁) / (r₂ - r₁)
      else interp0 ((r₂, f₂) :: rest) x

/-- Modelled from the spec: `fc = linear_interp(ratio, …)` after
clipping the ratio to the table domain (§4.4) — values outside the
calibration range are clamped, never extrapolated. -/
def interp_fc (tbl : List (ℚ × ℚ)) (x : ℚ) : ℚ :=
  interp0 tbl (clampDom tbl x)

/-- Modelled from the spec: `compute_ratings` of §4.4 — `GeometryError`
on a non-positive effective length, otherwise the ISO 281-style dynamic
and static rating formulas with `bm = 1.1`. -/
noncomputable def compute_ratings (sel : SelectedRoller) (pitch_diameter : ℚ)
    (Z : ℤ) (i : ℕ) (fc_table : List (ℚ × ℚ)) : Except EngineError LoadRatings :=
  if sel.Lwe ≤ 0 then .error .geometryError
  else
    .ok ⟨((11 : ℝ)/10) * ((interp_fc fc_table (sel.row.dw / pitch_diameter) : ℚ) : ℝ)
          * (((i : ℝ) * ((sel.Lwe : ℚ) : ℝ)) ^ ((7 : ℝ)/9))
          * (((Z : ℤ) : ℝ) ^ ((3 : ℝ)/4))
          * (((sel.row.dw : ℚ) : ℝ) ^ ((29 : ℝ)/27)),
        44 * (1 - ((sel.row.dw : ℚ) : ℝ) / ((pitch_diameter : ℚ) : ℝ))
          * (i : ℝ) * (((Z : ℤ) : ℝ)) * ((sel.Lwe : ℚ) : ℝ) * ((sel.row.dw : ℚ) : ℝ)⟩

/-! ### Spec-modelled engine: full pipeline (§2) -/

/-- Modelled from the spec: the output bundle of one engine invocation
(§6) — the interpolated F and its method, the derived geometry, the
selected roller (or `none` for the custom-roller path), and the load
ratings when a roller was selected. -/
structure PipelineOutput where
  race_F : ℚ
  f_method : FMethod
  geometry : DerivedGeometry
  selected : Option SelectedRoller
  ratings : Option LoadRatings

/-- Modelled from the spec: the full pipeline of §2 — Reference
Interpolator, Geometry Resolver, Roller Selector, Load-Rating
Calculator, each a pure function of its inputs and the static tables. -/
noncomputable def full_pipeline (race_table : List RaceGrooveRecord)
    (catalog : List RollerCatalogRecord) (fc_table : List (ℚ × ℚ))
    (d D B : ℚ) (i : ℕ) : Except EngineError PipelineOutput :=
  match find_race_groove_F race_table d D with
  | .error e => .error e
  | .ok (F, m) =>
    match resolve_geometry d D F with
    | .error e => .error e
    | .ok g =>
      match select_roller catalog g.adjusted_max_roller_diameter B with
      | none => .ok ⟨F, m, g, none, none⟩
      | some sel =>
        match compute_ratings sel g.pitch_diameter g.Z i fc_table with
        | .error e => .error e
        | .ok lr => .ok ⟨F, m, g, some sel, some lr⟩

/-! ### Helper lemmas for the engine -/

/-- Domination order used by the roller tie-break: `res` dominates `y`
when `y` has no larger diameter, and no larger length on equal diameter. -/
def domRel (res y : RollerCatalogRecord) : Prop :=
  y.dw ≤ res.dw ∧ (y.dw = res.dw → y.lw ≤ res.lw)

theorem domRel_refl (a : RollerCatalogRecord) : domRel a a :=
  ⟨le_refl _, fun _ => le_refl _⟩

theorem domRel_trans {a b c : RollerCatalogRecord}
    (h₁ : domRel a b) (h₂ : domRel b c) : domRel a c := by
  obtain ⟨hb, hb'⟩ := h₁
  obtain ⟨hc, hc'⟩ := h₂
  refine ⟨hc.trans hb, fun hca => ?_⟩
  have hba : b.dw = a.dw := le_antisymm hb (hca ▸ hc)
  exact (hc' (by rw [hba, hca])).trans (hb' hba)

theorem rollerStep_mem (b y : RollerCatalogRecord) :
    rollerStep b y = b ∨ rollerStep b y = y := by
  unfold rollerStep
  split
  · exact Or.inr rfl
  · exact Or.inl rfl

theorem rollerStep_dom_left (b y : RollerCatalogRecord) : domRel (rollerStep b y) b := by
  unfold rollerStep
  split
  · rename_i h
    rcases h with h | ⟨heq, hlw⟩
    · exact ⟨le_of_lt h, fun hba => absurd hba (ne_of_lt h)⟩
    · exact ⟨le_of_eq heq, fun _ => le_of_lt hlw⟩
  · exact domRel_refl b

theorem rollerStep_dom_right (b y : RollerCatalogRecord) : domRel (rollerStep b y) y := by
  unfold rollerStep
  split
  · exact domRel_refl y
  · rename_i h
    push_neg at h
    exact ⟨h.1, fun hyb => h.2 hyb.symm⟩

theorem foldl_rollerStep_mem (x : RollerCatalogRecord) (xs : List RollerCatalogRecord) :
    xs.foldl rollerStep x ∈ x :: xs := by
  induction xs generalizing x with
  | nil => simp
  | cons y ys ih =>
      rw [List.foldl_cons]
      rcases List.mem_cons.mp (ih (rollerStep x y)) with heq | hys
      · rw [heq]
        rcases rollerStep_mem x y with h | h <;> rw [h] <;> simp
      · simp [hys]

theorem foldl_rollerStep_dom (x : RollerCatalogRecord) (xs : List RollerCatalogRecord) :
    ∀ y ∈ x :: xs, domRel (xs.foldl rollerStep x) y := by
  induction xs generalizing x with
  | nil =>
      intro y hy
      simp only [List.mem_singleton] at hy
      subst hy
      exact domRel_refl _
  | cons z zs ih =>
      intro y hy
      rw [List.foldl_cons]
      rcases List.mem_cons.mp hy with heq | hy'
      · rw [heq]
        exact domRel_trans (ih (rollerStep x z) _ (by simp)) (rollerStep_dom_left x z)
      · rcases List.mem_cons.mp hy' with heq | hzs
        · rw [heq]
          exact domRel_trans (ih (rollerStep x z) _ (by simp)) (rollerStep_dom_right x z)
        · exact ih (rollerStep x z) y (by simp [hzs])

theorem interpOrNearest_isOk (x : RaceGrooveRecord) (xs : List RaceGrooveRecord) (d D : ℚ) :
    ∃ v, interpOrNearest x xs d D = .ok v := by
  unfold interpOrNearest
  split <;> exact ⟨_, rfl⟩

theorem find_race_groove_F_cons (x : RaceGrooveRecord) (xs : List RaceGrooveRecord)
    (d D : ℚ) :
    find_race_groove_F (x :: xs) d D =
      ((x :: xs).find? (fun r =>
          decide (r.inner_diameter = d) && decide (r.outer_diameter = D))).elim
        (interpOrNearest x xs d D)
        (fun r => .ok (r.F, FMethod.ExactMatch)) := rfl

theorem find_race_groove_F_cons_isOk (x : RaceGrooveRecord) (xs : List RaceGrooveRecord)
    (d D : ℚ) : ∃ v, find_race_groove_F (x :: xs) d D = .ok v := by
  rw [find_race_groove_F_cons]
  cases hfind : (x :: xs).find? (fun r =>
      decide (r.inner_diameter = d) && decide (r.outer_diameter = D)) with
  | none => exact interpOrNearest_isOk x xs d D
  | some r => exact ⟨_, rfl⟩

/-- Last entry of an fc table (`(0, 0)` for an empty table). -/
def lastPair : List (ℚ × ℚ) → ℚ × ℚ
  | [] => (0, 0)
  | [p] => p
  | _ :: q :: qs => lastPair (q :: qs)

theorem foldl_min_of_le : ∀ {a : ℚ} {l : List (ℚ × ℚ)},
    (∀ q ∈ l, a ≤ q.1) → l.foldl (fun acc q => min acc q.1) a = a := by
  intro a l
  induction l generalizing a with
  | nil => intro _; rfl
  | cons q qs ih =>
      intro h
      rw [List.foldl_cons, min_eq_left (h q (by simp))]
      exact ih (fun r hr => h r (by simp [hr]))

theorem foldl_min_le_init : ∀ {a : ℚ} {l : List (ℚ × ℚ)},
    l.foldl (fun acc q => min acc q.1) a ≤ a := by
  intro a l
  induction l generalizing a with
  | nil => exact le_rfl
  | cons q qs ih =>
      rw [List.foldl_cons]
      exact ih.trans (min_le_left _ _)

theorem init_le_foldl_max : ∀ {a : ℚ} {l : List (ℚ × ℚ)},
    a ≤ l.foldl (fun acc q => max acc q.1) a := by
  intro a l
  induction l generalizing a with
  | nil => exact le_rfl
  | cons q qs ih =>
      rw [List.foldl_cons]
      exact (le_max_left _ _).trans ih

theorem colMin_le_colMax (p : ℚ × ℚ) (ps : List (ℚ × ℚ)) :
    colMin (p :: ps) ≤ colMax (p :: ps) := by
  simp only [colMin, colMax]
  exact foldl_min_le_init.trans init_le_foldl_max

theorem colMin_sorted (p : ℚ × ℚ) (ps : List (ℚ × ℚ))
    (h : List.Chain' (fun a b => a < b) ((p :: ps).map Prod.fst)) :
    colMin (p :: ps) = p.1 := by
  have hpair : ∀ q ∈ ps, p.1 ≤ q.1 := by
    rw [List.map_cons] at h
    have hp := List.chain'_iff_pairwise.mp h
    have hhead := (List.pairwise_cons.mp hp).1
    intro q hq
    exact le_of_lt (hhead q.1 (List.mem_map_of_mem Prod.fst hq))
  simp only [colMin]
  exact foldl_min_of_le hpair

theorem colMax_sorted : ∀ (p : ℚ × ℚ) (ps : List (ℚ × ℚ)),
    List.Chain' (fun a b => a < b) ((p :: ps).map Prod.fst) →
    colMax (p :: ps) = (lastPair (p :: ps)).1 := by
  intro p ps
  induction ps generalizing p with
  | nil => intro _; rfl
  | cons q qs ih =>
      intro h
      rw [List.map_cons, List.map_cons, List.chain'_cons] at h
      have h2 := ih q (by rw [List.map_cons]; exact h.2)
      simp only [colMax] at h2 ⊢
      rw [List.foldl_cons, max_eq_right (le_of_lt h.1)]
      exact h2

theorem sorted_head_le_lastPair : ∀ (p : ℚ × ℚ) (ps : List (ℚ × ℚ)),
    List.Chain' (fun a b => a < b) ((p :: ps).map Prod.fst) →
    p.1 ≤ (lastPair (p :: ps)).1 := by
  intro p ps
  induction ps generalizing p with
  | nil => intro _; exact le_rfl
  | cons q qs ih =>
      intro h
      rw [List.map_cons, List.map_cons, List.chain'_cons] at h
      have h2 := ih q (by rw [List.map_cons]; exact h.2)
      exact (le_of_lt h.1).trans h2

theorem interp0_head (p : ℚ × ℚ) (ps : List (ℚ × ℚ)) : interp0 (p :: ps) p.1 = p.2 := by
  obtain ⟨r₁, f₁⟩ := p
  cases ps with
  | nil => rfl
  | cons q qs =>
      obtain ⟨r₂, f₂⟩ := q
      simp [interp0]

theorem interp0_last : ∀ (tbl : List (ℚ × ℚ)), tbl ≠ [] →
    List.Chain' (fun a b => a < b) (tbl.map Prod.fst) →
    interp0 tbl (lastPair tbl).1 = (lastPair tbl).2 := by
  intro tbl
  induction tbl with
  | nil => intro h _; exact absurd rfl h
  | cons p ps ih =>
      intro _ hsort
      obtain ⟨r₁, f₁⟩ := p
      cases ps with
      | nil => rfl
      | cons q qs =>
          obtain ⟨r₂, f₂⟩ := q
          rw [List.map_cons, List.map_cons, List.chain'_cons] at hsort
          obtain ⟨h12, htail⟩ := hsort
          cases qs with
          | nil =>
              show interp0 [(r₁, f₁), (r₂, f₂)] r₂ = f₂
              have hne12 : r₂ - r₁ ≠ 0 := sub_ne_zero.mpr (ne_of_gt h12)
              simp only [interp0, if_neg (not_le.mpr h12), if_pos le_rfl]
              rw [mul_div_cancel_left₀ _ hne12]
              ring
          | cons t ts =>
              have h2t : r₂ < t.1 := by
                rw [List.map_cons, List.chain'_cons] at htail
                exact htail.1
              have htchain : List.Chain' (fun a b => a < b) ((t :: ts).map Prod.fst) := by
                rw [List.map_cons, List.chain'_cons] at htail
                rw [List.map_cons]
                exact htail.2
              have htL : t.1 ≤ (lastPair (t :: ts)).1 := sorted_head_le_lastPair t ts htchain
              have hLgt2 : r₂ < (lastPair ((r₂, f₂) :: t :: ts)).1 :=
                lt_of_lt_of_le h2t htL
              have hLgt1 : r₁ < (lastPair ((r₂, f₂) :: t :: ts)).1 := h12.trans hLgt2
              show (if (lastPair ((r₂, f₂) :: t :: ts)).1 ≤ r₁ then f₁
                else if (lastPair ((r₂, f₂) :: t :: ts)).1 ≤ r₂ then
                  f₁ + ((lastPair ((r₂, f₂) :: t :: ts)).1 - r₁) * (f₂ - f₁) / (r₂ - r₁)
                else interp0 ((r₂, f₂) :: t :: ts) (lastPair ((r₂, f₂) :: t :: ts)).1)
                = (lastPair ((r₂, f₂) :: t :: ts)).2
              rw [if_neg (not_le.mpr hLgt1), if_neg (not_le.mpr hLgt2)]
              exact ih (List.cons_ne_nil _ _) (by rw [List.map_cons]; exact htail)

/-! ### Claims about the spec-modelled engine -/

/-- Claim C1: for every selected roller with positive effective length,
`compute_ratings` returns the dynamic rating
`Cr = 1.1 · fc · (i·Lwe)^(7/9) · Z^(3/4) · dw^(29/27)` and the static
rating `Cor = 44 · (1 − dw/pitch_diameter) · i · Z · Lwe · dw`, where
`fc` is the clamped interpolation of the fc table at `dw/pitch_diameter`. -/
theorem claim_C1_compute_ratings_formulas (sel : SelectedRoller) (pitch_diameter : ℚ)
    (Z : ℤ) (i : ℕ) (fc_table : List (ℚ × ℚ)) (h : 0 < sel.Lwe) :
    compute_ratings sel pitch_diameter Z i fc_table =
      .ok ⟨((11 : ℝ)/10) * ((interp_fc fc_table (sel.row.dw / pitch_diameter) : ℚ) : ℝ)
            * (((i : ℝ) * ((sel.Lwe : ℚ) : ℝ)) ^ ((7 : ℝ)/9))
            * (((Z : ℤ) : ℝ) ^ ((3 : ℝ)/4))
            * (((sel.row.dw : ℚ) : ℝ) ^ ((29 : ℝ)/27)),
          44 * (1 - ((sel.row.dw : ℚ) : ℝ) / ((pitch_diameter : ℚ) : ℝ))
            * (i : ℝ) * (((Z : ℤ) : ℝ)) * ((sel.Lwe : ℚ) : ℝ) * ((sel.row.dw : ℚ) : ℝ)⟩ := by
  unfold compute_ratings
  rw [if_neg (not_le.mpr h)]

/-- Witness for claim C1: a concrete 40 × 60 mm roller
(`r_max = 2` so `Lwe = 57 > 0`) at pitch diameter 335, `Z = 2`, `i = 4`. -/
theorem claim_C1_compute_ratings_formulas_witness :
    0 < (mkSelected ⟨40, 60, 1/5, 2, 0⟩).Lwe
    ∧ compute_ratings (mkSelected ⟨40, 60, 1/5, 2, 0⟩) 335 2 4 [(1/10, 50), (3/10, 60)] =
      .ok ⟨((11 : ℝ)/10)
            * ((interp_fc [(1/10, 50), (3/10, 60)]
                ((mkSelected ⟨40, 60, 1/5, 2, 0⟩).row.dw / 335) : ℚ) : ℝ)
            * ((((4 : ℕ) : ℝ) * (((mkSelected ⟨40, 60, 1/5, 2, 0⟩).Lwe : ℚ) : ℝ)) ^ ((7 : ℝ)/9))
            * ((((2 : ℤ) : ℤ) : ℝ) ^ ((3 : ℝ)/4))
            * ((((mkSelected ⟨40, 60, 1/5, 2, 0⟩).row.dw : ℚ) : ℝ) ^ ((29 : ℝ)/27)),
          44 * (1 - (((mkSelected ⟨40, 60, 1/5, 2, 0⟩).row.dw : ℚ) : ℝ) / ((335 : ℚ) : ℝ))
            * ((4 : ℕ) : ℝ) * ((((2 : ℤ) : ℤ) : ℝ))
            * (((mkSelected ⟨40, 60, 1/5, 2, 0⟩).Lwe : ℚ) : ℝ)
            * (((mkSelected ⟨40, 60, 1/5, 2, 0⟩).row.dw : ℚ) : ℝ)⟩ :=
  ⟨by norm_num [mkSelected],
   claim_C1_compute_ratings_formulas (mkSelected ⟨40, 60, 1/5, 2, 0⟩) 335 2 4
     [(1/10, 50), (3/10, 60)] (by norm_num [mkSelected])⟩

/-- Claim C2: `resolve_geometry` returns
`Z = floor(π / asin(max_roller_diameter / pitch_diameter))` whenever the
ratio lies in `(−1, 1)`, and fails with `GeometryError` (producing no
geometry, hence no Z) whenever the ratio lies outside `(−1, 1)` — in
particular whenever `max_roller_diameter ≥ pitch_diameter` for a
positive pitch diameter. -/
theorem claim_C2_resolve_geometry_domain (d D F : ℚ) :
    ((-1 < ((d + D)/2 - F) / ((d + D)/2) ∧ ((d + D)/2 - F) / ((d + D)/2) < 1) →
      resolve_geometry d D F = .ok ⟨(d + D)/2, F, (d + D)/2 - F,
        ((d + D)/2 - F) - (2/100) * ((d + D)/2),
        ⌊Real.pi / Real.arcsin (((((d + D)/2 - F) / ((d + D)/2) : ℚ)) : ℝ)⌋⟩)
    ∧ (¬(-1 < ((d + D)/2 - F) / ((d + D)/2) ∧ ((d + D)/2 - F) / ((d + D)/2) < 1) →
      resolve_geometry d D F = .error .geometryError)
    ∧ (0 < (d + D)/2 → (d + D)/2 ≤ (d + D)/2 - F →
      resolve_geometry d D F = .error .geometryError) := by
  refine ⟨fun h => ?_, fun h => ?_, fun hpd hge => ?_⟩
  · simp only [resolve_geometry, resolve_geometry_margin, rollerCountZ]
    rw [if_pos h]
  · simp only [resolve_geometry, resolve_geometry_margin]
    rw [if_neg h]
  · have hnot : ¬(-1 < ((d + D)/2 - F) / ((d + D)/2)
        ∧ ((d + D)/2 - F) / ((d + D)/2) < 1) := by
      rintro ⟨-, h₂⟩
      exact absurd h₂ (not_lt.mpr ((one_le_div hpd).mpr hge))
    simp only [resolve_geometry, resolve_geometry_margin]
    rw [if_neg hnot]

/-- Witness for claim C2: at `d = 1, D = 3, F = 1` the ratio is `1/2`
and geometry is produced; at `d = 3, D = 5, F = 10` the ratio is `−3/2`
and resolution fails. -/
theorem claim_C2_resolve_geometry_domain_witness :
    resolve_geometry 1 3 1 = .ok ⟨((1 : ℚ) + 3)/2, 1, ((1 : ℚ) + 3)/2 - 1,
        (((1 : ℚ) + 3)/2 - 1) - (2/100) * (((1 : ℚ) + 3)/2),
        ⌊Real.pi / Real.arcsin ((((((1 : ℚ) + 3)/2 - 1) / (((1 : ℚ) + 3)/2) : ℚ)) : ℝ)⌋⟩
    ∧ resolve_geometry 3 5 10 = .error .geometryError :=
  ⟨(claim_C2_resolve_geometry_domain 1 3 1).1 (by constructor <;> norm_num),
   (claim_C2_resolve_geometry_domain 3 5 10).2.1 (by rintro ⟨h, -⟩; norm_num at h)⟩

/-- Claim C3: the roller count Z produced by `resolve_geometry` is
computed from the unadjusted `max_roller_diameter = pitch_diameter − F`;
the 2% safety margin only produces `adjusted_max_roller_diameter`,
which `select_roller` uses solely to filter the catalog — changing the
margin never changes Z. -/
theorem claim_C3_z_uses_unadjusted (d D F : ℚ) (g : DerivedGeometry)
    (h : resolve_geometry d D F = .ok g) :
    g.pitch_diameter = (d + D)/2
    ∧ g.max_roller_diameter = (d + D)/2 - F
    ∧ g.Z = rollerCountZ (g.max_roller_diameter / g.pitch_diameter)
    ∧ g.adjusted_max_roller_diameter = g.max_roller_diameter - (2/100) * g.pitch_diameter
    ∧ (∀ (m : ℚ) (g' : DerivedGeometry),
        resolve_geometry_margin m d D F = .ok g' → g'.Z = g.Z)
    ∧ (∀ (catalog : List RollerCatalogRecord) (B : ℚ),
        select_roller catalog g.adjusted_max_roller_diameter B
          = pickFiltered (catalog.filter (rollerFits g.adjusted_max_roller_diameter B))) := by
  simp only [resolve_geometry, resolve_geometry_margin] at h
  by_cases hg : (-1 < ((d + D)/2 - F) / ((d + D)/2) ∧ ((d + D)/2 - F) / ((d + D)/2) < 1)
  · rw [if_pos hg] at h
    injection h with h'
    subst h'
    refine ⟨rfl, rfl, rfl, rfl, fun m g' h' => ?_, fun catalog B => rfl⟩
    simp only [resolve_geometry_margin] at h'
    rw [if_pos hg] at h'
    injection h' with h''
    subst h''
    rfl
  · rw [if_neg hg] at h
    exact absurd h (by simp)

/-- Witness for claim C3: the concrete resolution at `d = 1, D = 3,
F = 1`, whose geometry record is spelled out explicitly. -/
theorem claim_C3_z_uses_unadjusted_witness :
    (DerivedGeometry.mk (((1 : ℚ) + 3)/2) 1 (((1 : ℚ) + 3)/2 - 1)
        ((((1 : ℚ) + 3)/2 - 1) - (2/100) * (((1 : ℚ) + 3)/2))
        (rollerCountZ (((((1 : ℚ) + 3)/2 - 1) / (((1 : ℚ) + 3)/2))))).pitch_diameter
      = ((1 : ℚ) + 3)/2
    ∧ (DerivedGeometry.mk (((1 : ℚ) + 3)/2) 1 (((1 : ℚ) + 3)/2 - 1)
        ((((1 : ℚ) + 3)/2 - 1) - (2/100) * (((1 : ℚ) + 3)/2))
        (rollerCountZ (((((1 : ℚ) + 3)/2 - 1) / (((1 : ℚ) + 3)/2))))).max_roller_diameter
      = ((1 : ℚ) + 3)/2 - 1
    ∧ (DerivedGeometry.mk (((1 : ℚ) + 3)/2) 1 (((1 : ℚ) + 3)/2 - 1)
        ((((1 : ℚ) + 3)/2 - 1) - (2/100) * (((1 : ℚ) + 3)/2))
        (rollerCountZ (((((1 : ℚ) + 3)/2 - 1) / (((1 : ℚ) + 3)/2))))).Z
      = rollerCountZ
          ((DerivedGeometry.mk (((1 : ℚ) + 3)/2) 1 (((1 : ℚ) + 3)/2 - 1)
            ((((1 : ℚ) + 3)/2 - 1) - (2/100) * (((1 : ℚ) + 3)/2))
            (rollerCountZ (((((1 : ℚ) + 3)/2 - 1) / (((1 : ℚ) + 3)/2))))).max_roller_diameter
          / (DerivedGeometry.mk (((1 : ℚ) + 3)/2) 1 (((1 : ℚ) + 3)/2 - 1)
            ((((1 : ℚ) + 3)/2 - 1) - (2/100) * (((1 : ℚ) + 3)/2))
            (rollerCountZ (((((1 : ℚ) + 3)/2 - 1) / (((1 : ℚ) + 3)/2))))).pitch_diameter)
    ∧ (DerivedGeometry.mk (((1 : ℚ) + 3)/2) 1 (((1 : ℚ) + 3)/2 - 1)
        ((((1 : ℚ) + 3)/2 - 1) - (2/100) * (((1 : ℚ) + 3)/2))
        (rollerCountZ (((((1 : ℚ) + 3)/2 - 1) / (((1 : ℚ) + 3)/2))))).adjusted_max_roller_diameter
      = (DerivedGeometry.mk (((1 : ℚ) + 3)/2) 1 (((1 : ℚ) + 3)/2 - 1)
          ((((1 : ℚ) + 3)/2 - 1) - (2/100) * (((1 : ℚ) + 3)/2))
          (rollerCountZ (((((1 : ℚ) + 3)/2 - 1) / (((1 : ℚ) + 3)/2))))).max_roller_diameter
        - (2/100) * (DerivedGeometry.mk (((1 : ℚ) + 3)/2) 1 (((1 : ℚ) + 3)/2 - 1)
          ((((1 : ℚ) + 3)/2 - 1) - (2/100) * (((1 : ℚ) + 3)/2))
          (rollerCountZ (((((1 : ℚ) + 3)/2 - 1) / (((1 : ℚ) + 3)/2))))).pitch_diameter
    ∧ (∀ (m : ℚ) (g' : DerivedGeometry),
        resolve_geometry_margin m 1 3 1 = .ok g' →
          g'.Z = (DerivedGeometry.mk (((1 : ℚ) + 3)/2) 1 (((1 : ℚ) + 3)/2 - 1)
            ((((1 : ℚ) + 3)/2 - 1) - (2/100) * (((1 : ℚ) + 3)/2))
            (rollerCountZ (((((1 : ℚ) + 3)/2 - 1) / (((1 : ℚ) + 3)/2))))).Z)
    ∧ (∀ (catalog : List RollerCatalogRecord) (B : ℚ),
        select_roller catalog
            (DerivedGeometry.mk (((1 : ℚ) + 3)/2) 1 (((1 : ℚ) + 3)/2 - 1)
              ((((1 : ℚ) + 3)/2 - 1) - (2/100) * (((1 : ℚ) + 3)/2))
              (rollerCountZ (((((1 : ℚ) + 3)/2 - 1) / (((1 : ℚ) + 3)/2))))).adjusted_max_roller_diameter B
          = pickFiltered (catalog.filter (rollerFits
              (DerivedGeometry.mk (((1 : ℚ) + 3)/2) 1 (((1 : ℚ) + 3)/2 - 1)
                ((((1 : ℚ) + 3)/2 - 1) - (2/100) * (((1 : ℚ) + 3)/2))
                (rollerCountZ (((((1 : ℚ) + 3)/2 - 1) / (((1 : ℚ) + 3)/2))))).adjusted_max_roller_diameter B))) :=
  claim_C3_z_uses_unadjusted 1 3 1
    (DerivedGeometry.mk (((1 : ℚ) + 3)/2) 1 (((1 : ℚ) + 3)/2 - 1)
      ((((1 : ℚ) + 3)/2 - 1) - (2/100) * (((1 : ℚ) + 3)/2))
      (rollerCountZ (((((1 : ℚ) + 3)/2 - 1) / (((1 : ℚ) + 3)/2)))))
    (by simp only [resolve_geometry, resolve_geometry_margin]
        rw [if_pos (by constructor <;> norm_num)])

/-- Claim C4: for every ratio value outside the fc table's observed
domain `[min(ratio_column), max(ratio_column)]`, the fc factor used by
`compute_ratings` (namely `interp_fc` at that ratio) equals the fc value
at the nearest boundary row of the (strictly increasing) table — the
first row's fc below the minimum and the last row's fc above the
maximum: clamping, never extrapolation. -/
theorem claim_C4_fc_clamping (tbl : List (ℚ × ℚ)) (x : ℚ)
    (hne : tbl ≠ [])
    (hsort : List.Chain' (fun a b => a < b) (tbl.map Prod.fst)) :
    (x < colMin tbl → interp_fc tbl x = tbl.headI.2)
    ∧ (colMax tbl < x → interp_fc tbl x = (lastPair tbl).2) := by
  cases tbl with
  | nil => exact absurd rfl hne
  | cons p ps =>
      have hmm := colMin_le_colMax p ps
      constructor
      · intro hx
        unfold interp_fc clampDom
        rw [min_eq_right (le_of_lt (lt_of_lt_of_le hx hmm)),
          max_eq_left (le_of_lt hx), colMin_sorted p ps hsort]
        exact interp0_head p ps
      · intro hx
        unfold interp_fc clampDom
        rw [min_eq_left (le_of_lt hx), max_eq_right hmm, colMax_sorted p ps hsort]
        exact interp0_last (p :: ps) (List.cons_ne_nil p ps) hsort

/-- Witness for claim C4: a two-row fc table with ratio column
`[1/10, 3/10]`, queried below the minimum and above the maximum. -/
theorem claim_C4_fc_clamping_witness :
    interp_fc [((1 : ℚ)/10, 50), ((3 : ℚ)/10, 60)] (1/20)
      = ([((1 : ℚ)/10, 50), ((3 : ℚ)/10, 60)] : List (ℚ × ℚ)).headI.2
    ∧ interp_fc [((1 : ℚ)/10, 50), ((3 : ℚ)/10, 60)] 1
      = (lastPair [((1 : ℚ)/10, 50), ((3 : ℚ)/10, 60)]).2 :=
  ⟨(claim_C4_fc_clamping [((1 : ℚ)/10, 50), ((3 : ℚ)/10, 60)] (1/20)
      (by simp) (by norm_num [List.chain'_cons])).1 (by norm_num [colMin, min_def]),
   (claim_C4_fc_clamping [((1 : ℚ)/10, 50), ((3 : ℚ)/10, 60)] 1
      (by simp) (by norm_num [List.chain'_cons])).2 (by norm_num [colMax, max_def])⟩

/-- Claim C5: whenever some record matches the query `(d, D)` exactly,
`find_race_groove_F` returns that record's F with method `ExactMatch`,
and it fails with `LookupError` if and only if the table is empty. -/
theorem claim_C5_find_race_groove_exact (table : List RaceGrooveRecord) (d D : ℚ) :
    ((∃ r ∈ table, r.inner_diameter = d ∧ r.outer_diameter = D) →
      ∃ r ∈ table, r.inner_diameter = d ∧ r.outer_diameter = D ∧
        find_race_groove_F table d D = .ok (r.F, FMethod.ExactMatch))
    ∧ (find_race_groove_F table d D = .error .lookupError ↔ table = []) := by
  cases table with
  | nil =>
      refine ⟨fun hex => ?_, by simp [find_race_groove_F]⟩
      obtain ⟨r, hr, -⟩ := hex
      exact absurd hr (List.not_mem_nil r)
  | cons x xs =>
      constructor
      · rintro ⟨r, hr, hd, hD⟩
        have hsome : ((x :: xs).find? (fun r =>
            decide (r.inner_diameter = d) && decide (r.outer_diameter = D))).isSome := by
          rw [List.find?_isSome]
          exact ⟨r, hr, by simp [hd, hD]⟩
        obtain ⟨r', hr'⟩ := Option.isSome_iff_exists.mp hsome
        have hmem := List.mem_of_find?_eq_some hr'
        have hpred := List.find?_some hr'
        simp only [Bool.and_eq_true, decide_eq_true_eq] at hpred
        refine ⟨r', hmem, hpred.1, hpred.2, ?_⟩
        rw [find_race_groove_F_cons, hr']
        rfl
      · obtain ⟨v, hv⟩ := find_race_groove_F_cons_isOk x xs d D
        rw [hv]
        simp

/-- Witness for claim C5: a one-row table queried at its exact
coordinates. -/
theorem claim_C5_find_race_groove_exact_witness :
    (∃ r ∈ [(⟨100, 200, 30⟩ : RaceGrooveRecord)],
        r.inner_diameter = 100 ∧ r.outer_diameter = 200)
    ∧ ∃ r ∈ [(⟨100, 200, 30⟩ : RaceGrooveRecord)],
        r.inner_diameter = 100 ∧ r.outer_diameter = 200 ∧
        find_race_groove_F [⟨100, 200, 30⟩] 100 200 = .ok (r.F, FMethod.ExactMatch) :=
  ⟨by decide,
   (claim_C5_find_race_groove_exact [⟨100, 200, 30⟩] 100 200).1 (by decide)⟩

/-- Claim C6: whenever the fit-filtered catalog is non-empty,
`select_roller` returns a filtered row of maximal `dw`, with maximal
`lw` among the rows sharing that `dw`, and the choice is a deterministic
function of its inputs. -/
theorem claim_C6_select_roller_tiebreak (catalog : List RollerCatalogRecord) (amax B : ℚ)
    (h : catalog.filter (rollerFits amax B) ≠ []) :
    ∃ row, select_roller catalog amax B = some (mkSelected row)
      ∧ row ∈ catalog.filter (rollerFits amax B)
      ∧ (∀ y ∈ catalog.filter (rollerFits amax B),
          y.dw ≤ row.dw ∧ (y.dw = row.dw → y.lw ≤ row.lw))
      ∧ select_roller catalog amax B = select_roller catalog amax B := by
  cases hf : catalog.filter (rollerFits amax B) with
  | nil => exact absurd hf h
  | cons x xs =>
      refine ⟨pickBestRow x xs, ?_, ?_, ?_, rfl⟩
      · unfold select_roller
        rw [hf]
        rfl
      · exact foldl_rollerStep_mem x xs
      · exact fun y hy => foldl_rollerStep_dom x xs y hy

/-- Witness for claim C6: a three-row catalog with a diameter tie, where
the 40 × 60 roller beats the 40 × 50 roller. -/
theorem claim_C6_select_roller_tiebreak_witness :
    ∃ row, select_roller [⟨40, 50, 1/5, 2, 0⟩, ⟨40, 60, 1/5, 2, 0⟩, ⟨30, 80, 1/5, 2, 0⟩]
        45 100 = some (mkSelected row)
      ∧ row ∈ ([⟨40, 50, 1/5, 2, 0⟩, ⟨40, 60, 1/5, 2, 0⟩,
          ⟨30, 80, 1/5, 2, 0⟩] : List RollerCatalogRecord).filter (rollerFits 45 100)
      ∧ (∀ y ∈ ([⟨40, 50, 1/5, 2, 0⟩, ⟨40, 60, 1/5, 2, 0⟩,
          ⟨30, 80, 1/5, 2, 0⟩] : List RollerCatalogRecord).filter (rollerFits 45 100),
          y.dw ≤ row.dw ∧ (y.dw = row.dw → y.lw ≤ row.lw))
      ∧ select_roller [⟨40, 50, 1/5, 2, 0⟩, ⟨40, 60, 1/5, 2, 0⟩, ⟨30, 80, 1/5, 2, 0⟩] 45 100
        = select_roller [⟨40, 50, 1/5, 2, 0⟩, ⟨40, 60, 1/5, 2, 0⟩, ⟨30, 80, 1/5, 2, 0⟩] 45 100 :=
  claim_C6_select_roller_tiebreak
    [⟨40, 50, 1/5, 2, 0⟩, ⟨40, 60, 1/5, 2, 0⟩, ⟨30, 80, 1/5, 2, 0⟩] 45 100 (by decide)

/-- Claim C7: the full pipeline and each of its stages are deterministic
pure functions of their explicit inputs and the static tables — two
invocations with identical inputs and unmodified tables produce
identical outputs. -/
theorem claim_C7_pipeline_deterministic (race_table : List RaceGrooveRecord)
    (catalog : List RollerCatalogRecord) (fc_table : List (ℚ × ℚ))
    (d D B F amax pd : ℚ) (i : ℕ) (Z : ℤ) (sel : SelectedRoller) :
    full_pipeline race_table catalog fc_table d D B i
      = full_pipeline race_table catalog fc_table d D B i
    ∧ find_race_groove_F race_table d D = find_race_groove_F race_table d D
    ∧ resolve_geometry d D F = resolve_geometry d D F
    ∧ select_roller catalog amax B = select_roller catalog amax B
    ∧ compute_ratings sel pd Z i fc_table = compute_ratings sel pd Z i fc_table :=
  ⟨rfl, rfl, rfl, rfl, rfl⟩

end Bearing
